import Mathlib

/-!
Verification of the aithor-be backend's quota / API-key consistency logic.

The document store is modelled as lists of records (one list per
collection), and each Express route handler is translated into a pure
Lean function from the pre-state (plus the request parameters) to a
response together with the post-state.  Calls the source makes against
the `UserQuota` collection are additionally recorded in a trace of
`LedgerOp` values, so that statements about which ledger primitives a
handler invokes (read, lazy create, atomic upsert-increment) can be
made precisely.

Sources embedded here:
- src/models/APIKey.js (apiKeySchema, userQuotaSchema and their indexes)
- src/models/AppKey.js
- src/utils/quotaUtils.js (getAppKey, checkQuota, incrementQuota)
- src/routes/apiKeys.js (create, update, setActive, admin app-key upsert,
  admin reset-quota handlers)
- the chat send route (router.post on /send) and callAIService
- src/utils/otp.js (verifyOTP over the in-memory OTP map)
-/

/-- A generic helper: replace the first element satisfying `p` by `f` of it,
mirroring a MongoDB findOneAndUpdate / in-place save on the matched document. -/
def updateFirst (p : α → Bool) (f : α → α) : List α → List α
  | [] => []
  | x :: xs => if p x then f x :: xs else x :: updateFirst p f xs

/-- JS `String.prototype.toLowerCase`, character by character. -/
def strToLower (s : String) : String :=
  ⟨s.data.map Char.toLower⟩

/-- Substring search on character lists. -/
def charsContain (s pat : List Char) : Bool :=
  match s with
  | [] => pat.isEmpty
  | _ :: rest => pat.isPrefixOf s || charsContain rest pat

/-- JS `String.prototype.includes`: substring containment test. -/
def strContains (s pat : String) : Bool :=
  charsContain s.data pat.data

/-- A document of the APIKey collection (src/models/APIKey.js, apiKeySchema).
`id` stands for the Mongo `_id`; `lastUsed` is an abstract timestamp. -/
structure APIKeyRec where
  id : Nat
  userId : Nat
  provider : String
  key : String
  name : String
  isDefault : Bool
  isActive : Bool
  usageCount : Nat
  lastUsed : Option Nat
  deriving Repr, DecidableEq

/-- A document of the UserQuota collection (src/models/APIKey.js,
userQuotaSchema): usedCalls defaults to 0, maxFreeCalls defaults to 10. -/
structure QuotaRec where
  userId : Nat
  provider : String
  usedCalls : Nat
  maxFreeCalls : Nat
  deriving Repr, DecidableEq

/-- A document of the AppKey collection (src/models/AppKey.js). -/
structure AppKeyRec where
  provider : String
  key : String
  isActive : Bool
  usageCount : Nat
  lastUsed : Option Nat
  deriving Repr, DecidableEq

/-- The document store: one list per collection, in insertion order
(`findOne` returns the first match, inserts append).  `nextId` generates
fresh `_id`s for inserted API keys. -/
structure Store where
  apiKeys : List APIKeyRec
  quotas : List QuotaRec
  appKeys : List AppKeyRec
  nextId : Nat
  deriving Repr, DecidableEq

/-- Operations the source performs against the UserQuota collection.
`read` is `UserQuota.findOne`, `create` is `new UserQuota(...).save()`,
`upsertInc` is the single atomic
`UserQuota.findOneAndUpdate(filter, inc usedCalls by 1, upsert)` and
`upsertReset` the atomic `findOneAndUpdate(filter, usedCalls := 0, upsert)`. -/
inductive LedgerOp where
  | read (userId : Nat) (provider : String)
  | create (userId : Nat) (provider : String)
  | upsertInc (userId : Nat) (provider : String)
  | upsertReset (userId : Nat) (provider : String)
  deriving Repr, DecidableEq

/-- Filter used by every UserQuota query in the source: match on
(userId, provider). -/
def quotaMatch (u : Nat) (p : String) (q : QuotaRec) : Bool :=
  q.userId == u && q.provider == p

/-- The usedCalls counter currently stored for (u, p), if a ledger record
exists. -/
def quotaUsed (st : Store) (u : Nat) (p : String) : Option Nat :=
  (st.quotas.find? (quotaMatch u p)).map (·.usedCalls)

/-- quotaUtils.js getAppKey: `AppKey.findOne(provider, isActive true)`,
returning the raw key material. -/
def getAppKey (st : Store) (p : String) : Option String :=
  (st.appKeys.find? (fun a => a.provider == p && a.isActive)).map (·.key)

/-- quotaUtils.js checkQuota: only openai and gemini have free quotas;
otherwise findOne, lazily creating a fresh record (defaults 0 / 10), then
compare usedCalls with maxFreeCalls.  Returns the boolean, the post-state
and the trace of ledger operations performed. -/
def checkQuota (st : Store) (u : Nat) (p : String) :
    Bool × Store × List LedgerOp :=
  if !(p == "openai") && !(p == "gemini") then
    (false, st, [])
  else
    match st.quotas.find? (quotaMatch u p) with
    | some q => (decide (q.usedCalls < q.maxFreeCalls), st, [.read u p])
    | none =>
        let q : QuotaRec := ⟨u, p, 0, 10⟩
        (decide (q.usedCalls < q.maxFreeCalls),
         { st with quotas := st.quotas ++ [q] },
         [.read u p, .create u p])

/-- Effect of `UserQuota.findOneAndUpdate(filter, inc usedCalls 1, upsert)`:
increment the matched document, or insert a fresh one whose usedCalls is 1
(schema default maxFreeCalls = 10 applied on insert). -/
def upsertIncUsed (qs : List QuotaRec) (u : Nat) (p : String) : List QuotaRec :=
  if (qs.find? (quotaMatch u p)).isSome then
    updateFirst (quotaMatch u p) (fun q => { q with usedCalls := q.usedCalls + 1 }) qs
  else
    qs ++ [⟨u, p, 1, 10⟩]

/-- Effect of `AppKey.findOneAndUpdate(provider, inc usageCount, set
lastUsed)` performed by incrementQuota. -/
def bumpAppKey (p : String) (now : Nat) (aks : List AppKeyRec) :
    List AppKeyRec :=
  updateFirst (fun a => a.provider == p)
    (fun a => { a with usageCount := a.usageCount + 1, lastUsed := some now }) aks

/-- quotaUtils.js incrementQuota: for openai/gemini, one atomic
upsert-with-increment on UserQuota, then bump the AppKey usage counter;
for any other provider the function does nothing at all. -/
def incrementQuota (st : Store) (u : Nat) (p : String) (now : Nat) :
    Store × List LedgerOp :=
  if p == "openai" || p == "gemini" then
    ({ st with
        quotas := upsertIncUsed st.quotas u p,
        appKeys := bumpAppKey p now st.appKeys },
     [.upsertInc u p])
  else
    (st, [])

/-- Response of the create handler (POST on the api-keys router,
src/routes/apiKeys.js lines 204-250). -/
inductive CreateResp where
  | missingFields
  | duplicateKey
  | created (k : APIKeyRec)
  deriving Repr, DecidableEq

/-- HTTP status the create handler sends for each response. -/
def CreateResp.status : CreateResp → Nat
  | .missingFields => 400
  | .duplicateKey => 400
  | .created _ => 200

/-- The updateMany performed when a new default is chosen: clear
isDefault on every record matching (userId, provider, isDefault true).
Used by the create and update handlers. -/
def clearDefaultsFlagged (u : Nat) (p : String) (keys : List APIKeyRec) :
    List APIKeyRec :=
  keys.map fun k =>
    if k.userId == u && k.provider == p && k.isDefault then
      { k with isDefault := false }
    else k

/-- The updateMany performed by the set-active handler: it matches on
(userId, provider) alone and clears isDefault on all of them. -/
def clearDefaultsAll (u : Nat) (p : String) (keys : List APIKeyRec) :
    List APIKeyRec :=
  keys.map fun k =>
    if k.userId == u && k.provider == p then { k with isDefault := false }
    else k

/-- POST handler of the api-keys router (src/routes/apiKeys.js 204-250):
validate presence of provider/key/name (JS falsiness: absent and empty
string coincide), reject a duplicate (userId, provider, key) triple,
clear sibling defaults when isDefault is requested, then insert the new
record (isActive defaults to true, usageCount to 0). -/
def createKey (st : Store) (u : Nat) (provider key name : String)
    (isDefault : Bool) : CreateResp × Store :=
  if provider == "" || key == "" || name == "" then
    (.missingFields, st)
  else if (st.apiKeys.find? fun k =>
      k.userId == u && k.provider == provider && k.key == key).isSome then
    (.duplicateKey, st)
  else
    let keys1 :=
      if isDefault then clearDefaultsFlagged u provider st.apiKeys
      else st.apiKeys
    let newKey : APIKeyRec :=
      ⟨st.nextId, u, provider, key, name, isDefault, true, 0, none⟩
    (.created newKey,
     { st with apiKeys := keys1 ++ [newKey], nextId := st.nextId + 1 })

/-- Response of the PUT update handler (src/routes/apiKeys.js 253-304;
this first registered handler for the path wins over the later duplicate
registration).  `indexError` is the 500 produced when the save is
rejected by the unique (userId, provider, key) index. -/
inductive UpdateResp where
  | missingFields
  | notFound
  | duplicateKey
  | indexError
  | updated
  deriving Repr, DecidableEq

/-- HTTP status the update handler sends for each response. -/
def UpdateResp.status : UpdateResp → Nat
  | .missingFields => 400
  | .notFound => 404
  | .duplicateKey => 400
  | .indexError => 500
  | .updated => 200

/-- Replace the fields of the document with the given `_id`
(findByIdAndUpdate / document save). -/
def updateById (kid : Nat) (f : APIKeyRec → APIKeyRec)
    (keys : List APIKeyRec) : List APIKeyRec :=
  keys.map fun k => if k.id == kid then f k else k

/-- `APIKey.findByIdAndUpdate(id, inc usageCount, lastUsed := now)`:
the usage bump the send handler gives the personal key it used. -/
def bumpUsage (now : Nat) (k : APIKeyRec) : APIKeyRec :=
  { k with usageCount := k.usageCount + 1, lastUsed := some now }

/-- PUT update handler (src/routes/apiKeys.js 253-304): require key and
name; find the record by (id, owner); if the key value changes, reject
when any other record of the same owner already stores that key value
(the source's duplicate check has no provider filter); if isDefault
transitions false to true, first clear flagged sibling defaults of the
record's current provider; then assign key, name, isDefault, and the
provider when one was supplied, and save.  The save is rejected by the
unique (userId, provider, key) index when another record of the owner
holds the same triple; the sibling-clearing updateMany has already been
persisted at that point. -/
def updateKey (st : Store) (u : Nat) (keyId : Nat)
    (provider key name : String) (isDefault : Bool) : UpdateResp × Store :=
  if key == "" || name == "" then
    (.missingFields, st)
  else
    match st.apiKeys.find? (fun k => k.id == keyId && k.userId == u) with
    | none => (.notFound, st)
    | some r =>
        if key != r.key && (st.apiKeys.find? fun k2 =>
            k2.userId == u && k2.key == key && k2.id != keyId).isSome then
          (.duplicateKey, st)
        else
          let keys1 :=
            if isDefault && !r.isDefault then
              clearDefaultsFlagged u r.provider st.apiKeys
            else st.apiKeys
          let newProvider := if provider != "" then provider else r.provider
          let r' := { r with key := key, name := name,
                             isDefault := isDefault, provider := newProvider }
          if (st.apiKeys.find? fun k2 =>
              k2.id != keyId && k2.userId == u &&
              k2.provider == newProvider && k2.key == key).isSome then
            (.indexError, { st with apiKeys := keys1 })
          else
            (.updated, { st with apiKeys := updateById keyId (fun _ => r') keys1 })

/-- Response of the PATCH set-active handler. -/
inductive ActiveResp where
  | notFound
  | updated
  deriving Repr, DecidableEq

/-- PATCH set-active handler (src/routes/apiKeys.js 366-394): findById,
check ownership, clear isDefault on every record of (owner, provider),
then set isDefault on the chosen record. -/
def setActiveKey (st : Store) (u : Nat) (keyId : Nat) : ActiveResp × Store :=
  match st.apiKeys.find? (fun k => k.id == keyId) with
  | none => (.notFound, st)
  | some r =>
      if r.userId != u then (.notFound, st)
      else
        let keys1 := clearDefaultsAll u r.provider st.apiKeys
        (.updated,
         { st with apiKeys :=
            updateById keyId (fun k => { k with isDefault := true }) keys1 })

/-- Response of the admin reset-quota handler
(src/routes/apiKeys.js 901-920).  The handler has no missing-record
branch: the upsert silently creates an absent ledger record. -/
inductive ResetResp where
  | forbidden
  | invalidProvider
  | ok
  deriving Repr, DecidableEq

/-- HTTP status the reset-quota handler sends for each response:
requireAdmin responds 403, the provider check responds 400, success 200.
The handler never produces a 404. -/
def ResetResp.status : ResetResp → Nat
  | .forbidden => 403
  | .invalidProvider => 400
  | .ok => 200

/-- Admin reset-quota handler (src/routes/apiKeys.js 901-920), behind the
requireAdmin middleware (admin flag false responds 403 before any
mutation; the middleware body is in routes/auth.js lines 313-318):
reject providers outside the free-tier set with a 400, then
`UserQuota.findOneAndUpdate(filter, usedCalls := 0, upsert)`. -/
def resetQuotaHandler (st : Store) (isAdmin : Bool) (u : Nat) (p : String) :
    ResetResp × Store :=
  if !isAdmin then (.forbidden, st)
  else if !(p == "openai") && !(p == "gemini") then (.invalidProvider, st)
  else if (st.quotas.find? (quotaMatch u p)).isSome then
    let qs := updateFirst (quotaMatch u p) (fun q => { q with usedCalls := 0 }) st.quotas
    (.ok, { st with quotas := qs })
  else
    (.ok, { st with quotas := st.quotas ++ [⟨u, p, 0, 10⟩] })

/-- Response of the admin app-key upsert handler
(src/routes/apiKeys.js 758-809). -/
inductive AppKeyResp where
  | missingFields
  | invalidProvider
  | okUpdated
  deriving Repr, DecidableEq

/-- HTTP status the app-key upsert handler sends for each response. -/
def AppKeyResp.status : AppKeyResp → Nat
  | .missingFields => 400
  | .invalidProvider => 400
  | .okUpdated => 200

/-- Admin app-key upsert handler (src/routes/apiKeys.js 758-809).  In the
source the requireAdmin middleware on this route is commented out, so the
caller's admin flag is accepted as a parameter here but never consulted,
exactly as in the code: validate provider/key presence, restrict the
provider to openai/gemini, then replace the existing AppKey's material
(updating lastUsed) or insert a fresh active record. -/
def appKeyUpsertHandler (st : Store) (callerIsAdmin : Bool)
    (provider key : String) (now : Nat) : AppKeyResp × Store :=
  if provider == "" || key == "" then (.missingFields, st)
  else if !(provider == "openai") && !(provider == "gemini") then
    (.invalidProvider, st)
  else if (st.appKeys.find? (fun a => a.provider == provider)).isSome then
    let aks := updateFirst (fun a => a.provider == provider)
      (fun a => { a with key := key, lastUsed := some now }) st.appKeys
    (.okUpdated, { st with appKeys := aks })
  else
    (.okUpdated, { st with appKeys := st.appKeys ++ [⟨provider, key, true, 0, none⟩] })

/-- Provider resolution of the chat send handler: substring tests on the
lowercased modelId, in the source's order. -/
def resolveProvider (modelId : String) : String :=
  let l := strToLower modelId
  if strContains l "gpt" || strContains l "chatgpt" then "openai"
  else if strContains l "gemini" then "gemini"
  else if strContains l "claude" then "claude"
  else if strContains l "deepseek" then "deepseek"
  else if strContains l "perplexity" || strContains l "sonar" then "perplexity"
  else "unknown"

/-- Success flag of callAIService: the upstream network call is external,
so its outcome is a parameter; for providers other than openai/gemini the
function always reports failure (the frontend must call them). -/
def callAIService (provider : String) (aiOutcome : Bool) : Bool :=
  if provider == "openai" || provider == "gemini" then aiOutcome else false

/-- Observable response of the chat send handler: the HTTP status, the
success flag of the AI payload (for 200 responses), the key material that
was handed to callAIService, and the usedCalls figure reported in the
usage info (after the handler's in-memory increment). -/
structure SendResp where
  status : Nat
  aiSuccess : Option Bool
  usedKey : Option String
  usageUsed : Option Nat
  deriving Repr, DecidableEq

/-- The tail of the send handler once a key has been resolved: call the
AI service, read the ledger record for usage info when the provider is
free-tier (a UserQuota.findOne in the source regardless of which key was
used), run incrementQuota when the app key served the request, bump the
personal key's usage counter when one was used, and respond 200 with the
AI payload (also when the AI call failed). -/
def afterCall (st : Store) (u : Nat) (provider : String)
    (userKey : Option APIKeyRec) (keyMaterial : String) (usingAppKey : Bool)
    (aiOutcome : Bool) (now : Nat) (tr : List LedgerOp) :
    SendResp × Store × List LedgerOp :=
  let ai := callAIService provider aiOutcome
  let free := provider == "openai" || provider == "gemini"
  let usageInfo := if free then quotaUsed st u provider else none
  let tr2 := if free then tr ++ [.read u provider] else tr
  let stTr3 := if usingAppKey then
      let inc := incrementQuota st u provider now
      (inc.1, tr2 ++ inc.2)
    else (st, tr2)
  let usageInfo2 := if usingAppKey then usageInfo.map (· + 1) else usageInfo
  let st3 := match userKey with
    | some uk =>
        let aks := updateById uk.id (bumpUsage now) stTr3.1.apiKeys
        { stTr3.1 with apiKeys := aks }
    | none => stTr3.1
  (⟨200, some ai, some keyMaterial, usageInfo2⟩, st3, stTr3.2)

/-- Chat send handler (the /send POST route): validate input, resolve the
provider from the modelId, look for the user's default active key for
that provider; without one, free-tier providers go through checkQuota
(429 when exhausted) and the app key (500 when unconfigured), and the
remaining providers get a 400 asking for a personal key. -/
def sendHandler (st : Store) (u : Nat) (messagesPresent : Bool)
    (modelId : String) (aiOutcome : Bool) (now : Nat) :
    SendResp × Store × List LedgerOp :=
  if !messagesPresent || modelId == "" then (⟨400, none, none, none⟩, st, [])
  else
    let provider := resolveProvider modelId
    match st.apiKeys.find? (fun k =>
        k.userId == u && k.provider == provider && k.isDefault && k.isActive) with
    | some userKey =>
        afterCall st u provider (some userKey) userKey.key false aiOutcome now []
    | none =>
        if provider == "openai" || provider == "gemini" then
          let cq := checkQuota st u provider
          if !cq.1 then (⟨429, none, none, none⟩, cq.2.1, cq.2.2)
          else
            match getAppKey cq.2.1 provider with
            | none => (⟨500, none, none, none⟩, cq.2.1, cq.2.2)
            | some k => afterCall cq.2.1 u provider none k true aiOutcome now cq.2.2
        else (⟨400, none, none, none⟩, st, [])

/-- One entry of the in-memory OTP map (src/utils/otp.js, otpStore). -/
structure OTPEntry where
  otp : String
  expiryTime : Nat
  attempts : Nat
  requestCount : Nat
  lastRequestTime : Nat
  deriving Repr, DecidableEq

/-- The process-local OTP map, keyed by lowercased email. -/
abbrev OTPStore := List (String × OTPEntry)

/-- `otpStore.get(emailKey)`. -/
def otpLookup (s : OTPStore) (k : String) : Option OTPEntry :=
  (s.find? (fun kv => kv.1 == k)).map (·.2)

/-- `otpStore.delete(emailKey)`. -/
def otpDelete (s : OTPStore) (k : String) : OTPStore :=
  s.filter (fun kv => kv.1 != k)

/-- Replace the entry stored under `k` (the in-place mutation of the
object held in the map). -/
def otpSet (s : OTPStore) (k : String) (e : OTPEntry) : OTPStore :=
  s.map (fun kv => if kv.1 == k then (k, e) else kv)

/-- Result object of verifyOTP. -/
structure VerifyResult where
  isValid : Bool
  message : String
  deriving Repr, DecidableEq

/-- src/utils/otp.js verifyOTP (lines 108-136): absent entry fails;
an expired entry is deleted and fails; an entry that has already
accumulated three failed attempts is deleted and fails; a matching code
deletes the entry and succeeds; a wrong code increments the attempt
counter in place and fails, reporting the attempts remaining. -/
def verifyOTP (store : OTPStore) (email userOTP : String) (now : Nat) :
    VerifyResult × OTPStore :=
  let k := strToLower email
  match otpLookup store k with
  | none => (⟨false, "OTP not found or expired"⟩, store)
  | some d =>
      if d.expiryTime < now then
        (⟨false, "OTP has expired"⟩, otpDelete store k)
      else if 3 ≤ d.attempts then
        (⟨false, "Too many failed attempts. Please request a new OTP"⟩,
         otpDelete store k)
      else if d.otp == userOTP then
        (⟨true, "OTP verified successfully"⟩, otpDelete store k)
      else
        (⟨false,
          "Invalid OTP. " ++ toString (3 - (d.attempts + 1)) ++ " attempts remaining"⟩,
         otpSet store k { d with attempts := d.attempts + 1 })

/-- Iterated chat sends by one user with a fixed modelId and AI outcome:
returns the list of responses in order together with the final store. -/
def iterSend (u : Nat) (modelId : String) (aiOutcome : Bool) (now : Nat) :
    Nat → Store → List SendResp × Store
  | 0, st => ([], st)
  | n + 1, st =>
      let r := sendHandler st u true modelId aiOutcome now
      let rest := iterSend u modelId aiOutcome now n r.2.1
      (r.1 :: rest.1, rest.2)

/-- Two records violate default-key uniqueness when both carry the
default flag for the same (user, provider) slot. -/
def sameSlotDefault (a b : APIKeyRec) : Prop :=
  a.isDefault = true ∧ b.isDefault = true ∧
  a.userId = b.userId ∧ a.provider = b.provider

instance (a b : APIKeyRec) : Decidable (sameSlotDefault a b) := by
  unfold sameSlotDefault; infer_instance

/-- The default-key uniqueness invariant: no two distinct records of the
collection are both default-flagged for the same (user, provider). -/
def AtMostOneDefault (keys : List APIKeyRec) : Prop :=
  List.Pairwise (fun a b => ¬ sameSlotDefault a b) keys

/-- Mongo `_id` uniqueness: distinct documents carry distinct ids. -/
def IdsNodup (keys : List APIKeyRec) : Prop :=
  List.Pairwise (fun a b => a.id ≠ b.id) keys

/-! ### Generic list lemmas about the store primitives -/

/-- Finding again after updateFirst with the same predicate: the match is
the updated document, provided the update keeps the document matching. -/
theorem updateFirst_find?_self (p : α → Bool) (f : α → α) (l : List α)
    (hf : ∀ x, p x = true → p (f x) = true) :
    (updateFirst p f l).find? p = (l.find? p).map f := by
  induction l with
  | nil => rfl
  | cons x xs ih =>
      by_cases hx : p x = true
      · unfold updateFirst
        rw [if_pos hx, List.find?_cons_of_pos _ (hf x hx),
          List.find?_cons_of_pos _ hx]
        rfl
      · unfold updateFirst
        rw [if_neg hx, List.find?_cons_of_neg _ hx, List.find?_cons_of_neg _ hx, ih]

/-- An updateFirst on one predicate does not change what a find? on
another predicate observes through a projection `g`, provided the update
preserves the predicate and the projection. -/
theorem updateFirst_find?_map (pb pa : α → Bool) (f : α → α) (g : α → β)
    (l : List α) (hpa : ∀ x, pa (f x) = pa x)
    (hg : ∀ x, pa x = true → g (f x) = g x) :
    ((updateFirst pb f l).find? pa).map g = (l.find? pa).map g := by
  induction l with
  | nil => rfl
  | cons x xs ih =>
      by_cases hb : pb x = true
      · unfold updateFirst
        rw [if_pos hb]
        by_cases ha : pa x = true
        · rw [List.find?_cons_of_pos _ ((hpa x).trans ha), List.find?_cons_of_pos _ ha]
          simp [hg x ha]
        · rw [List.find?_cons_of_neg _ (by rw [hpa x]; exact ha),
            List.find?_cons_of_neg _ ha]
      · unfold updateFirst
        rw [if_neg hb]
        by_cases ha : pa x = true
        · rw [List.find?_cons_of_pos _ ha, List.find?_cons_of_pos _ ha]
        · rw [List.find?_cons_of_neg _ ha, List.find?_cons_of_neg _ ha, ih]

/-- When the left part of an append has no match, find? looks in the
appended part. -/
theorem find?_append_left_none (p : α → Bool) (l₁ l₂ : List α)
    (h : l₁.find? p = none) : (l₁ ++ l₂).find? p = l₂.find? p := by
  rw [List.find?_append, h, Option.none_or]

/-! ### Claim C3: duplicate prevention on create -/

/-- Claim C3: if an APIKey record with the identical (userId, provider,
rawKey) triple already exists, a create call with that triple responds
DuplicateKey and leaves the store untouched (no record inserted). -/
theorem createKey_duplicate_rejected (st : Store) (u : Nat) (p k n : String)
    (d : Bool) (hp : p ≠ "") (hk : k ≠ "") (hn : n ≠ "")
    (hdup : (st.apiKeys.find? fun r =>
      r.userId == u && r.provider == p && r.key == k).isSome = true) :
    createKey st u p k n d = (.duplicateKey, st) := by
  have h1 : (p == "" || k == "" || n == "") = false := by
    simp [hp, hk, hn]
  simp [createKey, h1, hdup]

/-- Witness for C3 at a concrete store holding the triple (7, openai, k1). -/
theorem createKey_duplicate_rejected_witness :
    createKey ⟨[⟨1, 7, "openai", "k1", "a", false, true, 0, none⟩], [], [], 2⟩
      7 "openai" "k1" "b" false
    = (.duplicateKey, ⟨[⟨1, 7, "openai", "k1", "a", false, true, 0, none⟩], [], [], 2⟩) :=
  createKey_duplicate_rejected _ _ _ _ _ _ (by decide) (by decide) (by decide)
    (by decide)

/-! ### Claim C5: incrementUsage contract -/

/-- Claim C5: incrementQuota is a complete no-op for providers outside
the free-tier set; for openai/gemini it performs exactly one ledger
operation, the atomic upsert-with-increment (no read precedes it), which
creates an absent record with usedCalls 1 and grows an existing record's
usedCalls by exactly one. -/
theorem incrementQuota_contract (st : Store) (u : Nat) (p : String) (now : Nat) :
    (p ≠ "openai" → p ≠ "gemini" → incrementQuota st u p now = (st, [])) ∧
    (p = "openai" ∨ p = "gemini" →
      (incrementQuota st u p now).2 = [LedgerOp.upsertInc u p] ∧
      (st.quotas.find? (quotaMatch u p) = none →
        (incrementQuota st u p now).1.quotas = st.quotas ++ [⟨u, p, 1, 10⟩]) ∧
      (∀ q, st.quotas.find? (quotaMatch u p) = some q →
        (incrementQuota st u p now).1.quotas.find? (quotaMatch u p)
          = some { q with usedCalls := q.usedCalls + 1 })) := by
  refine ⟨fun h1 h2 => ?_, fun hfree => ?_⟩
  · simp [incrementQuota, h1, h2]
  · have hcond : (p == "openai" || p == "gemini") = true := by
      rcases hfree with h | h <;> simp [h]
    refine ⟨by simp [incrementQuota, hcond], fun habs => ?_, fun q hq => ?_⟩
    · simp [incrementQuota, hcond, upsertIncUsed, habs]
    · have : (st.quotas.find? (quotaMatch u p)).isSome = true := by
        rw [hq]; rfl
      simp only [incrementQuota, hcond, upsertIncUsed, this, if_true]
      rw [updateFirst_find?_self _ _ _ (fun x hx => by
        simpa [quotaMatch] using hx), hq]
      rfl

/-- Witness for C5 exercising both the free-tier branch (hypothesis
p = openai) and the record-present increment. -/
theorem incrementQuota_contract_witness :
    (incrementQuota ⟨[], [⟨7, "openai", 3, 10⟩], [], 0⟩ 7 "openai" 5).2
      = [LedgerOp.upsertInc 7 "openai"] ∧
    (incrementQuota ⟨[], [⟨7, "openai", 3, 10⟩], [], 0⟩ 7 "openai" 5).1.quotas.find?
        (quotaMatch 7 "openai") = some ⟨7, "openai", 4, 10⟩ := by
  refine ⟨((incrementQuota_contract ⟨[], [⟨7, "openai", 3, 10⟩], [], 0⟩ 7 "openai" 5).2
    (Or.inl rfl)).1, ?_⟩
  exact ((incrementQuota_contract ⟨[], [⟨7, "openai", 3, 10⟩], [], 0⟩ 7 "openai" 5).2
    (Or.inl rfl)).2.2 ⟨7, "openai", 3, 10⟩ (by decide)

/-! ### Claim C6: hasRemainingQuota contract -/

/-- Claim C6: checkQuota returns an unconditional false for providers
outside the free-tier set without touching the ledger; for openai/gemini
it reports whether usedCalls is below maxFreeCalls on the stored record,
and when no record exists it lazily creates a zero-usage record (defaults
0 of 10) and returns true. -/
theorem checkQuota_contract (st : Store) (u : Nat) (p : String) :
    (p ≠ "openai" → p ≠ "gemini" → checkQuota st u p = (false, st, [])) ∧
    (p = "openai" ∨ p = "gemini" →
      (∀ q, st.quotas.find? (quotaMatch u p) = some q →
        checkQuota st u p
          = (decide (q.usedCalls < q.maxFreeCalls), st, [.read u p])) ∧
      (st.quotas.find? (quotaMatch u p) = none →
        checkQuota st u p
          = (true, { st with quotas := st.quotas ++ [⟨u, p, 0, 10⟩] },
             [.read u p, .create u p]))) := by
  refine ⟨fun h1 h2 => ?_, fun hfree => ⟨fun q hq => ?_, fun habs => ?_⟩⟩
  · simp [checkQuota, h1, h2]
  · have hcond : (!(p == "openai") && !(p == "gemini")) = false := by
      rcases hfree with h | h <;> simp [h]
    simp [checkQuota, hcond, hq]
  · have hcond : (!(p == "openai") && !(p == "gemini")) = false := by
      rcases hfree with h | h <;> simp [h]
    simp [checkQuota, hcond, habs]

/-- Witness for C6: the non-free branch at provider claude, and the lazy
creation branch at openai on an empty ledger. -/
theorem checkQuota_contract_witness :
    checkQuota ⟨[], [], [], 0⟩ 7 "claude" = (false, ⟨[], [], [], 0⟩, []) ∧
    checkQuota ⟨[], [], [], 0⟩ 7 "openai"
      = (true, ⟨[], [⟨7, "openai", 0, 10⟩], [], 0⟩,
         [.read 7 "openai", .create 7 "openai"]) := by
  refine ⟨(checkQuota_contract ⟨[], [], [], 0⟩ 7 "claude").1 (by decide) (by decide), ?_⟩
  exact ((checkQuota_contract ⟨[], [], [], 0⟩ 7 "openai").2 (Or.inl rfl)).2 (by decide)

/-! ### Claim C7: resetUsage contract and idempotence -/

/-- After a reset for a free-tier provider the stored counter is zero;
shared helper for the idempotence argument. -/
theorem resetQuota_sets_zero (st : Store) (u : Nat) (p : String)
    (hfree : p = "openai" ∨ p = "gemini") :
    (resetQuotaHandler st true u p).1 = .ok ∧
    quotaUsed (resetQuotaHandler st true u p).2 u p = some 0 := by
  have hcond : (!(p == "openai") && !(p == "gemini")) = false := by
    rcases hfree with h | h <;> simp [h]
  by_cases hex : (st.quotas.find? (quotaMatch u p)).isSome = true
  · obtain ⟨q, hq⟩ := Option.isSome_iff_exists.mp hex
    refine ⟨by simp [resetQuotaHandler, hcond, hex], ?_⟩
    simp only [resetQuotaHandler, Bool.not_true, hcond, hex, if_true,
      Bool.false_eq_true, if_false, quotaUsed]
    rw [updateFirst_find?_self _ _ _ (fun x hx => by
      simpa [quotaMatch] using hx), hq]
    rfl
  · have habs : st.quotas.find? (quotaMatch u p) = none :=
      Option.not_isSome_iff_eq_none.mp hex
    refine ⟨by simp [resetQuotaHandler, hcond, hex], ?_⟩
    simp only [resetQuotaHandler, Bool.not_true, hcond, hex, if_true,
      Bool.false_eq_true, if_false, quotaUsed]
    rw [find?_append_left_none _ _ _ habs]
    simp [quotaMatch]

/-- Counterexample to C7 as stated: for an admin caller and the
non-free-tier provider claude, the handler answers the invalid-provider
validation error with HTTP status 400 — not NotFound (404) as the claim
says — and performs no mutation. -/
theorem resetQuota_nonfree_answers_400 :
    (resetQuotaHandler ⟨[], [], [], 0⟩ true 1 "claude").1 = .invalidProvider ∧
    ResetResp.status (resetQuotaHandler ⟨[], [], [], 0⟩ true 1 "claude").1 = 400 ∧
    ResetResp.status (resetQuotaHandler ⟨[], [], [], 0⟩ true 1 "claude").1 ≠ 404 ∧
    (resetQuotaHandler ⟨[], [], [], 0⟩ true 1 "claude").2 = ⟨[], [], [], 0⟩ := by
  refine ⟨by decide, by decide, by decide, by decide⟩

/-- Claim C7 (amended): for an admin caller and a free-tier provider,
reset answers ok and sets usedCalls to 0, creating the ledger record when
absent; a second immediate reset also answers ok with usedCalls 0 (no
error for a missing or already-zero record); the only failure for an
admin caller is the invalid-provider 400 (not a 404), exactly when the
provider is outside the free-tier set; a non-admin caller is rejected
with Forbidden before any mutation. -/
theorem resetQuota_contract (st : Store) (u : Nat) (p : String) :
    (resetQuotaHandler st false u p = (.forbidden, st)) ∧
    (p ≠ "openai" → p ≠ "gemini" →
      resetQuotaHandler st true u p = (.invalidProvider, st) ∧
      ResetResp.status (resetQuotaHandler st true u p).1 = 400) ∧
    (p = "openai" ∨ p = "gemini" →
      (resetQuotaHandler st true u p).1 = .ok ∧
      quotaUsed (resetQuotaHandler st true u p).2 u p = some 0 ∧
      (resetQuotaHandler (resetQuotaHandler st true u p).2 true u p).1 = .ok ∧
      quotaUsed (resetQuotaHandler (resetQuotaHandler st true u p).2 true u p).2 u p
        = some 0) := by
  refine ⟨by simp [resetQuotaHandler], fun h1 h2 => ?_, fun hfree => ?_⟩
  · have : (!(p == "openai") && !(p == "gemini")) = true := by simp [h1, h2]
    constructor
    · simp [resetQuotaHandler, this]
    · simp [resetQuotaHandler, this, ResetResp.status]
  · obtain ⟨h1, h2⟩ := resetQuota_sets_zero st u p hfree
    obtain ⟨h3, h4⟩ := resetQuota_sets_zero (resetQuotaHandler st true u p).2 u p hfree
    exact ⟨h1, h2, h3, h4⟩

/-- Witness for C7 (amended) at an empty store and provider openai. -/
theorem resetQuota_contract_witness :
    (resetQuotaHandler ⟨[], [], [], 0⟩ true 3 "openai").1 = .ok ∧
    quotaUsed (resetQuotaHandler ⟨[], [], [], 0⟩ true 3 "openai").2 3 "openai" = some 0 ∧
    (resetQuotaHandler (resetQuotaHandler ⟨[], [], [], 0⟩ true 3 "openai").2
      true 3 "openai").1 = .ok := by
  obtain ⟨h1, h2, h3, h4⟩ := (resetQuota_contract ⟨[], [], [], 0⟩ 3 "openai").2.2 (Or.inl rfl)
  exact ⟨h1, h2, h3⟩

/-! ### Claim C8: app-key upsert admin gating -/

/-- Claim C8 evaluated at its failing input: an authenticated caller
whose admin flag is false upserts an app key for openai and the handler
answers 200 and mutates the AppKey store — the requireAdmin middleware on
this route is commented out in the source, so no Forbidden rejection
happens, contradicting the route's own Swagger documentation (Admin only,
403 Admin access required). -/
theorem appKeyUpsert_ignores_admin_flag :
    appKeyUpsertHandler ⟨[], [], [], 0⟩ false "openai" "sk-test" 7
      = (.okUpdated, ⟨[], [], [⟨"openai", "sk-test", true, 0, none⟩], 0⟩) ∧
    AppKeyResp.status
      (appKeyUpsertHandler ⟨[], [], [], 0⟩ false "openai" "sk-test" 7).1 = 200 ∧
    (appKeyUpsertHandler ⟨[], [], [], 0⟩ false "openai" "sk-test" 7).2
      ≠ (⟨[], [], [], 0⟩ : Store) := by
  refine ⟨by decide, by decide, by decide⟩

/-! ### Claim C10: OTP single-use consumption -/

/-- Looking up a key right after deleting it yields nothing. -/
theorem otpLookup_otpDelete (s : OTPStore) (k : String) :
    otpLookup (otpDelete s k) k = none := by
  have : (otpDelete s k).find? (fun kv => kv.1 == k) = none := by
    rw [List.find?_eq_none]
    intro kv hkv
    have := (List.mem_filter.mp hkv).2
    simp only [otpDelete] at hkv
    intro hx
    simp only [bne] at this
    rw [hx] at this
    simp at this
  simp [otpLookup, this]

/-- Replacing the entry stored under a present key makes lookups observe
the replacement. -/
theorem otpLookup_otpSet (s : OTPStore) (k : String) (d e : OTPEntry)
    (h : otpLookup s k = some d) : otpLookup (otpSet s k e) k = some e := by
  induction s with
  | nil => simp [otpLookup] at h
  | cons kv t ih =>
      by_cases hk : (kv.1 == k) = true
      · simp only [otpSet, List.map_cons, if_pos hk]
        simp [otpLookup, List.find?_cons]
      · have hk' : (kv.1 == k) = false := by simpa using hk
        have h' : otpLookup t k = some d := by
          simpa [otpLookup, List.find?_cons, hk'] using h
        have ht := ih h'
        simp only [otpSet, List.map_cons, if_neg hk]
        simp only [otpSet] at ht
        simpa [otpLookup, List.find?_cons, hk'] using ht

/-- Counterexample to C10 as stated: after exactly three failed attempts
the stored entry has NOT been deleted — it is still present with its
attempt counter at 3; deletion only happens on the next (fourth) call.
The fourth attempt then fails even with the previously correct code and
deletes the entry. -/
theorem verifyOTP_entry_survives_third_failure :
    otpLookup
      (verifyOTP (verifyOTP (verifyOTP
        [("a@x.com", ⟨"123456", 100, 0, 1, 0⟩)]
        "a@x.com" "000000" 50).2 "a@x.com" "000000" 50).2 "a@x.com" "000000" 50).2
      "a@x.com" = some ⟨"123456", 100, 3, 1, 0⟩ ∧
    (verifyOTP (verifyOTP (verifyOTP (verifyOTP
        [("a@x.com", ⟨"123456", 100, 0, 1, 0⟩)]
        "a@x.com" "000000" 50).2 "a@x.com" "000000" 50).2 "a@x.com" "000000" 50).2
        "a@x.com" "123456" 50)
      = (⟨false, "Too many failed attempts. Please request a new OTP"⟩, []) := by
  refine ⟨by decide, by decide⟩

/-- Claim C10 (amended): a successful verifyOTP deletes the stored entry,
so an immediately repeated call for the same email answers
isValid = false with message OTP not found or expired; a wrong code below
the attempt limit keeps the entry with its counter incremented, so after
the third failed attempt the entry is still stored with attempts = 3; the
next call — whatever code it carries — then fails (attempt limit or
expiry) and deletes the entry, and every later attempt keeps failing with
OTP not found or expired. -/
theorem verifyOTP_consumption (store : OTPStore) (email code : String)
    (now now2 : Nat) (e : OTPEntry) :
    (otpLookup store (strToLower email) = some e → ¬ e.expiryTime < now →
      e.attempts < 3 → e.otp = code →
      (verifyOTP store email code now).1 = ⟨true, "OTP verified successfully"⟩ ∧
      otpLookup (verifyOTP store email code now).2 (strToLower email) = none ∧
      (verifyOTP (verifyOTP store email code now).2 email code now2).1
        = ⟨false, "OTP not found or expired"⟩) ∧
    (otpLookup store (strToLower email) = some e → ¬ e.expiryTime < now →
      e.attempts < 3 → e.otp ≠ code →
      (verifyOTP store email code now).1.isValid = false ∧
      otpLookup (verifyOTP store email code now).2 (strToLower email)
        = some { e with attempts := e.attempts + 1 }) ∧
    (otpLookup store (strToLower email) = some e → 3 ≤ e.attempts →
      (verifyOTP store email code now).1.isValid = false ∧
      otpLookup (verifyOTP store email code now).2 (strToLower email) = none) ∧
    (otpLookup store (strToLower email) = none →
      verifyOTP store email code now
        = (⟨false, "OTP not found or expired"⟩, store)) := by
  refine ⟨fun he hexp hatt hotp => ?_, fun he hexp hatt hotp => ?_,
    fun he hatt => ?_, fun he => ?_⟩
  · have hres : verifyOTP store email code now
        = (⟨true, "OTP verified successfully"⟩, otpDelete store (strToLower email)) := by
      simp [verifyOTP, he, hexp, Nat.not_lt.mpr (Nat.le_of_lt_succ
        (Nat.lt_succ_of_lt hatt)), hotp, Nat.not_le.mpr hatt]
    have hdel : otpLookup (verifyOTP store email code now).2 (strToLower email) = none := by
      rw [hres]; exact otpLookup_otpDelete _ _
    refine ⟨by rw [hres], hdel, ?_⟩
    generalize hgen : (verifyOTP store email code now).2 = s2 at hdel
    simp [verifyOTP, hdel]
  · have hres : verifyOTP store email code now
        = (⟨false, "Invalid OTP. " ++ toString (3 - (e.attempts + 1))
             ++ " attempts remaining"⟩,
           otpSet store (strToLower email) { e with attempts := e.attempts + 1 }) := by
      simp [verifyOTP, he, hexp, hotp, Nat.not_le.mpr hatt]
    refine ⟨by rw [hres], ?_⟩
    rw [hres]
    exact otpLookup_otpSet _ _ _ _ he
  · by_cases hexp : e.expiryTime < now
    · have hres : verifyOTP store email code now
          = (⟨false, "OTP has expired"⟩, otpDelete store (strToLower email)) := by
        simp [verifyOTP, he, hexp]
      exact ⟨by rw [hres], by rw [hres]; exact otpLookup_otpDelete _ _⟩
    · have hres : verifyOTP store email code now
          = (⟨false, "Too many failed attempts. Please request a new OTP"⟩,
             otpDelete store (strToLower email)) := by
        simp [verifyOTP, he, hexp, hatt]
      exact ⟨by rw [hres], by rw [hres]; exact otpLookup_otpDelete _ _⟩
  · simp [verifyOTP, he]

/-- Witness for C10 (amended): concrete success-then-replay run. -/
theorem verifyOTP_consumption_witness :
    (verifyOTP [("a@x.com", ⟨"123456", 100, 0, 1, 0⟩)] "a@x.com" "123456" 50).1
      = ⟨true, "OTP verified successfully"⟩ ∧
    (verifyOTP (verifyOTP [("a@x.com", ⟨"123456", 100, 0, 1, 0⟩)]
        "a@x.com" "123456" 50).2 "a@x.com" "123456" 60).1
      = ⟨false, "OTP not found or expired"⟩ := by
  obtain ⟨h1, _, h3⟩ :=
    (verifyOTP_consumption [("a@x.com", ⟨"123456", 100, 0, 1, 0⟩)]
      "a@x.com" "123456" 50 60 ⟨"123456", 100, 0, 1, 0⟩).1
      (by decide) (by decide) (by decide) (by decide)
  exact ⟨h1, h3⟩

/-! ### Claim C2: resolution with a personal default key -/

/-- The tail of the send handler when the user's own key was resolved:
usage info is read for free-tier providers, the personal key's counter is
bumped, and no quota create or increment happens. -/
theorem afterCall_userKey (st : Store) (u : Nat) (provider : String)
    (uk : APIKeyRec) (aiOutcome : Bool) (now : Nat) :
    afterCall st u provider (some uk) uk.key false aiOutcome now []
      = (⟨200, some (callAIService provider aiOutcome), some uk.key,
           if provider == "openai" || provider == "gemini" then
             quotaUsed st u provider else none⟩,
         { st with apiKeys := updateById uk.id (bumpUsage now) st.apiKeys },
         if provider == "openai" || provider == "gemini" then
           [LedgerOp.read u provider] else []) := by
  cases hfree : (provider == "openai" || provider == "gemini") with
  | true => simp [afterCall, hfree]
  | false => simp [afterCall, hfree]

/-- Counterexample to C2 as stated: in a store where user 7 owns an
active default openai key and the quota ledger is empty, resolving a
chat send via that personal key still performs a UserQuota read (the
usage-info lookup in the handler), so the resolution does not leave the
quota ledger untouched. -/
theorem send_with_default_key_reads_ledger :
    (sendHandler ⟨[⟨1, 7, "openai", "sk-u", "mine", true, true, 0, none⟩],
        [], [], 2⟩ 7 true "gpt-4o-mini" true 5).2.2
      = [LedgerOp.read 7 "openai"] ∧
    (sendHandler ⟨[⟨1, 7, "openai", "sk-u", "mine", true, true, 0, none⟩],
        [], [], 2⟩ 7 true "gpt-4o-mini" true 5).2.2 ≠ [] := by
  refine ⟨by decide, by decide⟩

/-- Claim C2 (amended): with an active default-flagged key for the
resolved provider, the send handler uses exactly that key's material,
bumps that key's usage counter and last-used timestamp, and neither
creates nor increments any quota ledger record — the only ledger
operation it may perform is a read-only usage-info lookup (present for
free-tier providers). -/
theorem send_default_key_resolution (st : Store) (u : Nat)
    (modelId : String) (aiOutcome : Bool) (now : Nat) (uk : APIKeyRec)
    (hm : modelId ≠ "")
    (hk : st.apiKeys.find? (fun k => k.userId == u &&
        k.provider == resolveProvider modelId && k.isDefault && k.isActive)
      = some uk) :
    (sendHandler st u true modelId aiOutcome now).1.status = 200 ∧
    (sendHandler st u true modelId aiOutcome now).1.usedKey = some uk.key ∧
    (sendHandler st u true modelId aiOutcome now).2.1.quotas = st.quotas ∧
    (sendHandler st u true modelId aiOutcome now).2.1.appKeys = st.appKeys ∧
    (sendHandler st u true modelId aiOutcome now).2.1.apiKeys
      = updateById uk.id (bumpUsage now) st.apiKeys ∧
    (∀ op ∈ (sendHandler st u true modelId aiOutcome now).2.2,
      op = LedgerOp.read u (resolveProvider modelId)) := by
  have hm' : (modelId == "") = false := by simp [hm]
  have hsend : sendHandler st u true modelId aiOutcome now
      = afterCall st u (resolveProvider modelId) (some uk) uk.key false
          aiOutcome now [] := by
    simp [sendHandler, hm', hk]
  rw [hsend, afterCall_userKey]
  refine ⟨rfl, rfl, rfl, rfl, rfl, ?_⟩
  cases hfree : (resolveProvider modelId == "openai" ||
      resolveProvider modelId == "gemini") with
  | true =>
      simp only [hfree, if_true, List.mem_singleton]
      rintro op rfl
      rfl
  | false =>
      simp only [hfree, Bool.false_eq_true, if_false, List.not_mem_nil]
      intro op h
      exact absurd h (by simp)

/-- Witness for C2 (amended) at the counterexample store. -/
theorem send_default_key_resolution_witness :
    (sendHandler ⟨[⟨1, 7, "openai", "sk-u", "mine", true, true, 0, none⟩],
        [], [], 2⟩ 7 true "gpt-4o-mini" true 5).1.status = 200 ∧
    (sendHandler ⟨[⟨1, 7, "openai", "sk-u", "mine", true, true, 0, none⟩],
        [], [], 2⟩ 7 true "gpt-4o-mini" true 5).1.usedKey = some "sk-u" := by
  obtain ⟨h1, h2, _⟩ := send_default_key_resolution
    ⟨[⟨1, 7, "openai", "sk-u", "mine", true, true, 0, none⟩], [], [], 2⟩
    7 "gpt-4o-mini" true 5 ⟨1, 7, "openai", "sk-u", "mine", true, true, 0, none⟩
    (by decide) (by decide)
  exact ⟨h1, h2⟩

/-! ### The app-key path of the send handler (shared by C9 and C4) -/

/-- updateFirst skips a left part without matches. -/
theorem updateFirst_append_left_none (p : α → Bool) (f : α → α)
    (l₁ l₂ : List α) (h : ∀ x ∈ l₁, p x = false) :
    updateFirst p f (l₁ ++ l₂) = l₁ ++ updateFirst p f l₂ := by
  induction l₁ with
  | nil => rfl
  | cons x xs ih =>
      have hx : p x = false := h x (List.mem_cons_self x xs)
      simp only [List.cons_append, updateFirst, hx, Bool.false_eq_true, if_false,
        List.cons.injEq, true_and]
      exact ih fun y hy => h y (List.mem_cons_of_mem x hy)

/-- The record (u, p) matches its own quota filter. -/
theorem quotaMatch_self (u : Nat) (p : String) (c m : Nat) :
    quotaMatch u p ⟨u, p, c, m⟩ = true := by
  simp [quotaMatch]

/-- App-key path, ledger record absent: the call is served via the app
key, the record is created and immediately incremented to usedCalls 1,
the AppKey counter is bumped, and the reported usage is 1 — whatever the
AI outcome was. -/
theorem send_appkey_absent (st : Store) (u : Nat) (modelId : String)
    (aiOutcome : Bool) (now : Nat) (akey : String)
    (hm : modelId ≠ "")
    (hfree : resolveProvider modelId = "openai" ∨ resolveProvider modelId = "gemini")
    (hk : st.apiKeys.find? (fun k => k.userId == u &&
        k.provider == resolveProvider modelId && k.isDefault && k.isActive) = none)
    (hq : st.quotas.find? (quotaMatch u (resolveProvider modelId)) = none)
    (ha : getAppKey st (resolveProvider modelId) = some akey) :
    sendHandler st u true modelId aiOutcome now
      = (⟨200, some aiOutcome, some akey, some 1⟩,
         { st with
            quotas := st.quotas ++ [⟨u, resolveProvider modelId, 1, 10⟩],
            appKeys := bumpAppKey (resolveProvider modelId) now st.appKeys },
         [.read u (resolveProvider modelId), .create u (resolveProvider modelId),
          .read u (resolveProvider modelId), .upsertInc u (resolveProvider modelId)]) := by
  have hm' : (modelId == "") = false := by simp [hm]
  have hcond : (resolveProvider modelId == "openai" ||
      resolveProvider modelId == "gemini") = true := by
    rcases hfree with h | h <;> simp [h]
  have hncond : (!(resolveProvider modelId == "openai") &&
      !(resolveProvider modelId == "gemini")) = false := by
    rcases hfree with h | h <;> simp [h]
  have hnomatch : ∀ x ∈ st.quotas,
      quotaMatch u (resolveProvider modelId) x = false := by
    intro x hx
    have := List.find?_eq_none.mp hq x hx
    simpa using this
  have hcq : checkQuota st u (resolveProvider modelId)
      = (true, { st with quotas := st.quotas ++ [⟨u, resolveProvider modelId, 0, 10⟩] },
         [.read u (resolveProvider modelId), .create u (resolveProvider modelId)]) := by
    simp [checkQuota, hncond, hq]
  have hfq : (st.quotas
        ++ [(⟨u, resolveProvider modelId, 0, 10⟩ : QuotaRec)]).find?
        (quotaMatch u (resolveProvider modelId))
      = some (⟨u, resolveProvider modelId, 0, 10⟩ : QuotaRec) := by
    rw [find?_append_left_none _ _ _ hq]
    simp [quotaMatch_self]
  have hupd : upsertIncUsed
      (st.quotas ++ [(⟨u, resolveProvider modelId, 0, 10⟩ : QuotaRec)])
      u (resolveProvider modelId)
      = st.quotas ++ [(⟨u, resolveProvider modelId, 1, 10⟩ : QuotaRec)] := by
    rw [upsertIncUsed, if_pos (by rw [hfq]; rfl),
      updateFirst_append_left_none _ _ _ _ hnomatch]
    simp [updateFirst, quotaMatch_self]
  have ha' : (st.appKeys.find? (fun a =>
      a.provider == resolveProvider modelId && a.isActive)).map (·.key)
      = some akey := ha
  simp [sendHandler, afterCall, incrementQuota, callAIService, quotaUsed,
    getAppKey, hm', hk, hcond, hcq, hfq, hupd, ha']

/-- App-key path, ledger record present with quota remaining: the call is
served via the app key, the record's usedCalls grows by one, and the
reported usage is the incremented counter — whatever the AI outcome. -/
theorem send_appkey_present (st : Store) (u : Nat) (modelId : String)
    (aiOutcome : Bool) (now : Nat) (akey : String) (q : QuotaRec)
    (hm : modelId ≠ "")
    (hfree : resolveProvider modelId = "openai" ∨ resolveProvider modelId = "gemini")
    (hk : st.apiKeys.find? (fun k => k.userId == u &&
        k.provider == resolveProvider modelId && k.isDefault && k.isActive) = none)
    (hq : st.quotas.find? (quotaMatch u (resolveProvider modelId)) = some q)
    (hlt : q.usedCalls < q.maxFreeCalls)
    (ha : getAppKey st (resolveProvider modelId) = some akey) :
    sendHandler st u true modelId aiOutcome now
      = (⟨200, some aiOutcome, some akey, some (q.usedCalls + 1)⟩,
         { st with
            quotas := updateFirst (quotaMatch u (resolveProvider modelId))
              (fun r => { r with usedCalls := r.usedCalls + 1 }) st.quotas,
            appKeys := bumpAppKey (resolveProvider modelId) now st.appKeys },
         [.read u (resolveProvider modelId),
          .read u (resolveProvider modelId),
          .upsertInc u (resolveProvider modelId)]) := by
  have hm' : (modelId == "") = false := by simp [hm]
  have hcond : (resolveProvider modelId == "openai" ||
      resolveProvider modelId == "gemini") = true := by
    rcases hfree with h | h <;> simp [h]
  have hncond : (!(resolveProvider modelId == "openai") &&
      !(resolveProvider modelId == "gemini")) = false := by
    rcases hfree with h | h <;> simp [h]
  have hcq : checkQuota st u (resolveProvider modelId)
      = (true, st, [.read u (resolveProvider modelId)]) := by
    simp [checkQuota, hncond, hq, hlt]
  have ha' : (st.appKeys.find? (fun a =>
      a.provider == resolveProvider modelId && a.isActive)).map (·.key)
      = some akey := ha
  have hupd : upsertIncUsed st.quotas u (resolveProvider modelId)
      = updateFirst (quotaMatch u (resolveProvider modelId))
        (fun r => { r with usedCalls := r.usedCalls + 1 }) st.quotas := by
    rw [upsertIncUsed, if_pos (by rw [hq]; rfl)]
  simp [sendHandler, afterCall, incrementQuota, callAIService, quotaUsed,
    getAppKey, hm', hk, hcond, hcq, hq, hupd, ha']

/-- App-key path, quota exhausted: the call is rejected with 429 before
any key is fetched, and the only ledger operation is the read performed
by checkQuota; the store is unchanged. -/
theorem send_appkey_exhausted (st : Store) (u : Nat) (modelId : String)
    (aiOutcome : Bool) (now : Nat) (q : QuotaRec)
    (hm : modelId ≠ "")
    (hfree : resolveProvider modelId = "openai" ∨ resolveProvider modelId = "gemini")
    (hk : st.apiKeys.find? (fun k => k.userId == u &&
        k.provider == resolveProvider modelId && k.isDefault && k.isActive) = none)
    (hq : st.quotas.find? (quotaMatch u (resolveProvider modelId)) = some q)
    (hge : ¬ q.usedCalls < q.maxFreeCalls) :
    sendHandler st u true modelId aiOutcome now
      = (⟨429, none, none, none⟩, st, [.read u (resolveProvider modelId)]) := by
  have hm' : (modelId == "") = false := by simp [hm]
  have hcond : (resolveProvider modelId == "openai" ||
      resolveProvider modelId == "gemini") = true := by
    rcases hfree with h | h <;> simp [h]
  have hncond : (!(resolveProvider modelId == "openai") &&
      !(resolveProvider modelId == "gemini")) = false := by
    rcases hfree with h | h <;> simp [h]
  have hcq : checkQuota st u (resolveProvider modelId)
      = (false, st, [.read u (resolveProvider modelId)]) := by
    simp [checkQuota, hncond, hq, hge]
  simp [sendHandler, hm', hk, hcond, hcq]

/-! ### Claim C9: quota consumed even when the AI call fails -/

/-- Claim C9: on the app-key path (no personal default key, free-tier
provider, quota remaining, app key configured) the handler still answers
200 carrying the AI payload's success flag, and the ledger's usedCalls is
incremented exactly once — for every AI outcome, in particular when the
upstream call reports failure; nothing is rolled back or skipped. -/
theorem send_appkey_increments_even_on_failure (st : Store) (u : Nat)
    (modelId : String) (aiOutcome : Bool) (now : Nat) (akey : String)
    (hm : modelId ≠ "")
    (hfree : resolveProvider modelId = "openai" ∨ resolveProvider modelId = "gemini")
    (hk : st.apiKeys.find? (fun k => k.userId == u &&
        k.provider == resolveProvider modelId && k.isDefault && k.isActive) = none)
    (ha : getAppKey st (resolveProvider modelId) = some akey) :
    (st.quotas.find? (quotaMatch u (resolveProvider modelId)) = none →
      (sendHandler st u true modelId aiOutcome now).1.status = 200 ∧
      (sendHandler st u true modelId aiOutcome now).1.aiSuccess = some aiOutcome ∧
      (sendHandler st u true modelId aiOutcome now).1.usedKey = some akey ∧
      quotaUsed (sendHandler st u true modelId aiOutcome now).2.1 u
        (resolveProvider modelId) = some 1) ∧
    (∀ q, st.quotas.find? (quotaMatch u (resolveProvider modelId)) = some q →
      q.usedCalls < q.maxFreeCalls →
      (sendHandler st u true modelId aiOutcome now).1.status = 200 ∧
      (sendHandler st u true modelId aiOutcome now).1.aiSuccess = some aiOutcome ∧
      (sendHandler st u true modelId aiOutcome now).1.usedKey = some akey ∧
      quotaUsed (sendHandler st u true modelId aiOutcome now).2.1 u
        (resolveProvider modelId) = some (q.usedCalls + 1)) := by
  refine ⟨fun hq => ?_, fun q hq hlt => ?_⟩
  · rw [send_appkey_absent st u modelId aiOutcome now akey hm hfree hk hq ha]
    refine ⟨rfl, rfl, rfl, ?_⟩
    simp only [quotaUsed]
    rw [find?_append_left_none _ _ _ hq]
    simp [quotaMatch_self]
  · rw [send_appkey_present st u modelId aiOutcome now akey q hm hfree hk hq hlt ha]
    refine ⟨rfl, rfl, rfl, ?_⟩
    simp only [quotaUsed]
    rw [updateFirst_find?_self _ _ _ (fun x hx => by
      simpa [quotaMatch] using hx), hq]
    rfl

/-- Witness for C9 with a failing AI outcome: the quota record is still
created at usedCalls 1 and the response reports the failure. -/
theorem send_appkey_increments_even_on_failure_witness :
    (sendHandler ⟨[], [], [⟨"openai", "app-k", true, 0, none⟩], 0⟩
      7 true "gpt-4o-mini" false 3).1.status = 200 ∧
    (sendHandler ⟨[], [], [⟨"openai", "app-k", true, 0, none⟩], 0⟩
      7 true "gpt-4o-mini" false 3).1.aiSuccess = some false ∧
    quotaUsed (sendHandler ⟨[], [], [⟨"openai", "app-k", true, 0, none⟩], 0⟩
      7 true "gpt-4o-mini" false 3).2.1 7 (resolveProvider "gpt-4o-mini")
      = some 1 := by
  obtain ⟨h1, h2, _, h4⟩ :=
    (send_appkey_increments_even_on_failure
      ⟨[], [], [⟨"openai", "app-k", true, 0, none⟩], 0⟩ 7 "gpt-4o-mini"
      false 3 "app-k" (by decide) (Or.inl (by decide)) (by decide)
      (by decide)).1 (by decide)
  exact ⟨h1, h2, h4⟩

/-! ### Claim C4: free-tier exhaustion boundary -/

/-- Bumping the AppKey usage counter changes neither which app key a
later lookup resolves nor its key material. -/
theorem find?_key_bumpAppKey (aks : List AppKeyRec) (p p2 : String) (now : Nat) :
    ((bumpAppKey p2 now aks).find?
        (fun a => a.provider == p && a.isActive)).map (·.key)
      = (aks.find? (fun a => a.provider == p && a.isActive)).map (·.key) :=
  updateFirst_find?_map _ _ _ _ _ (fun x => by simp) (fun x _ => rfl)

/-- The exhaustion run: from a ledger record at c of 10 with c + k = 10,
the next k sends succeed via the app key reporting c+1, ..., c+k = 10,
and the following send is rejected with 429; afterwards the counter
stands at 10. -/
theorem free_tier_run (u : Nat) (modelId : String) (now : Nat) (akey : String)
    (hm : modelId ≠ "") (hop : resolveProvider modelId = "openai") :
    ∀ (k c : Nat) (st : Store),
    st.apiKeys.find? (fun r => r.userId == u &&
      r.provider == resolveProvider modelId && r.isDefault && r.isActive) = none →
    st.quotas.find? (quotaMatch u (resolveProvider modelId))
      = some ⟨u, resolveProvider modelId, c, 10⟩ →
    getAppKey st (resolveProvider modelId) = some akey →
    c + k = 10 →
    (iterSend u modelId true now (k + 1) st).1.map (·.status)
        = List.replicate k 200 ++ [429] ∧
    (iterSend u modelId true now (k + 1) st).1.map (·.usedKey)
        = List.replicate k (some akey) ++ [none] ∧
    (iterSend u modelId true now (k + 1) st).1.map (·.usageUsed)
        = ((List.range k).map fun i => some (c + i + 1)) ++ [none] ∧
    quotaUsed (iterSend u modelId true now (k + 1) st).2 u
      (resolveProvider modelId) = some 10 := by
  intro k
  induction k with
  | zero =>
      intro c st hk hq ha hc
      have hc10 : c = 10 := by omega
      subst hc10
      have hsend := send_appkey_exhausted st u modelId true now
        ⟨u, resolveProvider modelId, 10, 10⟩ hm (Or.inl hop) hk hq (by simp)
      simp only [iterSend, hsend]
      refine ⟨rfl, rfl, rfl, ?_⟩
      simp [quotaUsed, hq]
  | succ k ih =>
      intro c st hk hq ha hc
      have hlt : c < 10 := by omega
      have hsend := send_appkey_present st u modelId true now akey
        ⟨u, resolveProvider modelId, c, 10⟩ hm (Or.inl hop) hk hq (by simpa) ha
      set st1 : Store :=
        { st with
            quotas := updateFirst (quotaMatch u (resolveProvider modelId))
              (fun r => { r with usedCalls := r.usedCalls + 1 }) st.quotas,
            appKeys := bumpAppKey (resolveProvider modelId) now st.appKeys }
        with hst1
      have hk1 : st1.apiKeys.find? (fun r => r.userId == u &&
          r.provider == resolveProvider modelId && r.isDefault && r.isActive)
          = none := hk
      have hq1 : st1.quotas.find? (quotaMatch u (resolveProvider modelId))
          = some ⟨u, resolveProvider modelId, c + 1, 10⟩ := by
        show (updateFirst _ _ st.quotas).find? _ = _
        rw [updateFirst_find?_self _ _ _ (fun x hx => by
          simpa [quotaMatch] using hx), hq]
        rfl
      have ha1 : getAppKey st1 (resolveProvider modelId) = some akey := by
        show ((bumpAppKey _ _ st.appKeys).find? _).map (·.key) = _
        rw [find?_key_bumpAppKey]
        exact ha
      obtain ⟨ih1, ih2, ih3, ih4⟩ := ih (c + 1) st1 hk1 hq1 ha1 (by omega)
      have hiter : iterSend u modelId true now (k + 1 + 1) st
          = ((sendHandler st u true modelId true now).1
              :: (iterSend u modelId true now (k + 1)
                   (sendHandler st u true modelId true now).2.1).1,
             (iterSend u modelId true now (k + 1)
                   (sendHandler st u true modelId true now).2.1).2) := rfl
      rw [hiter, hsend]
      refine ⟨?_, ?_, ?_, ?_⟩
      · simp only [List.map_cons, ih1, List.replicate_succ, List.cons_append]
      · simp only [List.map_cons, ih2, List.replicate_succ, List.cons_append]
      · simp only [List.map_cons, ih3, List.range_succ_eq_map, List.map_map,
          List.cons_append]
        refine congrArg₂ _ rfl (congrArg₂ _ ?_ rfl)
        refine List.map_congr_left fun i _ => ?_
        simp only [Function.comp]
        exact congrArg some (by omega)
      · exact ih4

/-- One step of iterSend. -/
theorem iterSend_succ (u : Nat) (modelId : String) (aiOutcome : Bool)
    (now n : Nat) (st : Store) :
    iterSend u modelId aiOutcome now (n + 1) st
      = ((sendHandler st u true modelId aiOutcome now).1
          :: (iterSend u modelId aiOutcome now n
               (sendHandler st u true modelId aiOutcome now).2.1).1,
         (iterSend u modelId aiOutcome now n
               (sendHandler st u true modelId aiOutcome now).2.1).2) := rfl

/-- Claim C4: with no personal openai key, no pre-existing ledger record
and a configured app key, the first 10 chat sends all answer 200 served
by the app key, reporting usedCalls 1 through 10 in order, and the 11th
send is rejected with 429 without being served; the counter ends at 10. -/
theorem free_tier_boundary (st : Store) (u : Nat) (modelId : String)
    (now : Nat) (akey : String)
    (hm : modelId ≠ "") (hop : resolveProvider modelId = "openai")
    (hk : st.apiKeys.find? (fun r => r.userId == u &&
      r.provider == resolveProvider modelId && r.isDefault && r.isActive) = none)
    (hq : st.quotas.find? (quotaMatch u (resolveProvider modelId)) = none)
    (ha : getAppKey st (resolveProvider modelId) = some akey) :
    (iterSend u modelId true now 11 st).1.map (·.status)
        = List.replicate 10 200 ++ [429] ∧
    (iterSend u modelId true now 11 st).1.map (·.usedKey)
        = List.replicate 10 (some akey) ++ [none] ∧
    (iterSend u modelId true now 11 st).1.map (·.usageUsed)
        = ((List.range 10).map fun i => some (i + 1)) ++ [none] ∧
    quotaUsed (iterSend u modelId true now 11 st).2 u
      (resolveProvider modelId) = some 10 := by
  have hsend := send_appkey_absent st u modelId true now akey hm
    (Or.inl hop) hk hq ha
  have hq1 : (st.quotas
      ++ [(⟨u, resolveProvider modelId, 1, 10⟩ : QuotaRec)]).find?
      (quotaMatch u (resolveProvider modelId))
      = some ⟨u, resolveProvider modelId, 1, 10⟩ := by
    rw [find?_append_left_none _ _ _ hq]
    simp [quotaMatch_self]
  have ha1 : ((bumpAppKey (resolveProvider modelId) now st.appKeys).find?
      (fun a => a.provider == resolveProvider modelId && a.isActive)).map
        (·.key) = some akey := by
    rw [find?_key_bumpAppKey]
    exact ha
  obtain ⟨ih1, ih2, ih3, ih4⟩ := free_tier_run u modelId now akey hm hop 9 1
    { st with
        quotas := st.quotas ++ [⟨u, resolveProvider modelId, 1, 10⟩],
        appKeys := bumpAppKey (resolveProvider modelId) now st.appKeys }
    hk hq1 ha1 (by omega)
  have hX : (sendHandler st u true modelId true now).2.1
      = { st with
            quotas := st.quotas ++ [⟨u, resolveProvider modelId, 1, 10⟩],
            appKeys := bumpAppKey (resolveProvider modelId) now st.appKeys } := by
    rw [hsend]
  have hR : (sendHandler st u true modelId true now).1
      = ⟨200, some true, some akey, some 1⟩ := by
    rw [hsend]
  have ih1' : (iterSend u modelId true now 10
      { st with
          quotas := st.quotas ++ [⟨u, resolveProvider modelId, 1, 10⟩],
          appKeys := bumpAppKey (resolveProvider modelId) now st.appKeys }).1.map
      (·.status) = List.replicate 9 200 ++ [429] := ih1
  have ih2' : (iterSend u modelId true now 10
      { st with
          quotas := st.quotas ++ [⟨u, resolveProvider modelId, 1, 10⟩],
          appKeys := bumpAppKey (resolveProvider modelId) now st.appKeys }).1.map
      (·.usedKey) = List.replicate 9 (some akey) ++ [none] := ih2
  have ih3' : (iterSend u modelId true now 10
      { st with
          quotas := st.quotas ++ [⟨u, resolveProvider modelId, 1, 10⟩],
          appKeys := bumpAppKey (resolveProvider modelId) now st.appKeys }).1.map
      (·.usageUsed)
      = ((List.range 9).map fun i => some (1 + i + 1)) ++ [none] := ih3
  have ih4' : quotaUsed (iterSend u modelId true now 10
      { st with
          quotas := st.quotas ++ [⟨u, resolveProvider modelId, 1, 10⟩],
          appKeys := bumpAppKey (resolveProvider modelId) now st.appKeys }).2 u
      (resolveProvider modelId) = some 10 := ih4
  rw [show (11 : Nat) = 10 + 1 from rfl, iterSend_succ, hX, hR]
  refine ⟨?_, ?_, ?_, ih4'⟩
  · rw [List.map_cons, ih1']
    rfl
  · rw [List.map_cons, ih2']
    rfl
  · rw [List.map_cons, ih3']
    have h10 : List.range 10 = 0 :: (List.range 9).map Nat.succ :=
      List.range_succ_eq_map 9
    rw [h10]
    simp only [List.map_cons, List.map_map, List.cons_append]
    refine congrArg₂ _ rfl (congrArg₂ _ ?_ rfl)
    refine List.map_congr_left fun i _ => ?_
    simp only [Function.comp]
    exact congrArg some (by omega)

/-- Witness for C4: user 7, an active openai app key, empty personal keys
and ledger. -/
theorem free_tier_boundary_witness :
    (iterSend 7 "gpt-4o-mini" true 0 11
        ⟨[], [], [⟨"openai", "app-k", true, 0, none⟩], 0⟩).1.map (·.status)
      = List.replicate 10 200 ++ [429] ∧
    quotaUsed (iterSend 7 "gpt-4o-mini" true 0 11
        ⟨[], [], [⟨"openai", "app-k", true, 0, none⟩], 0⟩).2 7
      (resolveProvider "gpt-4o-mini") = some 10 := by
  obtain ⟨h1, _, _, h4⟩ := free_tier_boundary
    ⟨[], [], [⟨"openai", "app-k", true, 0, none⟩], 0⟩ 7 "gpt-4o-mini" 0 "app-k"
    (by decide) (by decide) (by decide) (by decide) (by decide)
  exact ⟨h1, h4⟩

/-! ### Claim C1: default-key uniqueness -/

/-- The slot-violation relation is symmetric. -/
theorem sameSlot_symm {a b : APIKeyRec} (h : sameSlotDefault a b) :
    sameSlotDefault b a :=
  ⟨h.2.1, h.1, h.2.2.1.symm, h.2.2.2.symm⟩

/-- Absence of a slot violation is a symmetric relation. -/
theorem notSameSlot_symmetric :
    Symmetric (fun a b : APIKeyRec => ¬ sameSlotDefault a b) :=
  fun _ _ h hba => h (sameSlot_symm hba)

/-- Id distinctness is a symmetric relation. -/
theorem idNe_symmetric : Symmetric (fun a b : APIKeyRec => a.id ≠ b.id) :=
  fun _ _ h => h.symm

/-- A map that never turns a record into a default of a new slot
preserves the uniqueness invariant. -/
theorem atMostOne_map (f : APIKeyRec → APIKeyRec) (l : List APIKeyRec)
    (hf : ∀ x, (f x).isDefault = true →
      (f x).userId = x.userId ∧ (f x).provider = x.provider ∧
      x.isDefault = true)
    (h : AtMostOneDefault l) : AtMostOneDefault (l.map f) := by
  rw [AtMostOneDefault, List.pairwise_map]
  refine h.imp ?_
  intro a b hab hcon
  obtain ⟨h1, h2, h3, h4⟩ := hcon
  obtain ⟨ha1, ha2, ha3⟩ := hf a h1
  obtain ⟨hb1, hb2, hb3⟩ := hf b h2
  exact hab ⟨ha3, hb3, by rw [← ha1, ← hb1]; exact h3,
    by rw [← ha2, ← hb2]; exact h4⟩

/-- An id-preserving map keeps the ids distinct. -/
theorem idsNodup_map (f : APIKeyRec → APIKeyRec) (l : List APIKeyRec)
    (hf : ∀ x, (f x).id = x.id) (h : IdsNodup l) : IdsNodup (l.map f) := by
  rw [IdsNodup, List.pairwise_map]
  refine h.imp ?_
  intro a b hab hcon
  exact hab (by rw [← hf a, ← hf b, hcon])

/-- Clearing flagged defaults preserves the uniqueness invariant. -/
theorem clearFlagged_preserves (u : Nat) (p : String) (l : List APIKeyRec)
    (h : AtMostOneDefault l) :
    AtMostOneDefault (clearDefaultsFlagged u p l) := by
  refine atMostOne_map _ _ ?_ h
  intro x hx
  by_cases hc : (x.userId == u && x.provider == p && x.isDefault) = true
  · rw [if_pos hc] at hx
    exact absurd hx (by simp)
  · rw [if_neg hc] at hx ⊢
    exact ⟨rfl, rfl, hx⟩

/-- Clearing flagged defaults keeps ids distinct. -/
theorem clearFlagged_ids (u : Nat) (p : String) (l : List APIKeyRec)
    (h : IdsNodup l) : IdsNodup (clearDefaultsFlagged u p l) := by
  refine idsNodup_map _ _ ?_ h
  intro x
  by_cases hc : (x.userId == u && x.provider == p && x.isDefault) = true
  · rw [if_pos hc]
  · rw [if_neg hc]

/-- Clearing all flags of a slot preserves the uniqueness invariant. -/
theorem clearAll_preserves (u : Nat) (p : String) (l : List APIKeyRec)
    (h : AtMostOneDefault l) : AtMostOneDefault (clearDefaultsAll u p l) := by
  refine atMostOne_map _ _ ?_ h
  intro x hx
  by_cases hc : (x.userId == u && x.provider == p) = true
  · rw [if_pos hc] at hx
    exact absurd hx (by simp)
  · rw [if_neg hc] at hx ⊢
    exact ⟨rfl, rfl, hx⟩

/-- Clearing all flags of a slot keeps ids distinct. -/
theorem clearAll_ids (u : Nat) (p : String) (l : List APIKeyRec)
    (h : IdsNodup l) : IdsNodup (clearDefaultsAll u p l) := by
  refine idsNodup_map _ _ ?_ h
  intro x
  by_cases hc : (x.userId == u && x.provider == p) = true
  · rw [if_pos hc]
  · rw [if_neg hc]

/-- After clearDefaultsFlagged nobody in the cleared slot is default. -/
theorem clearFlagged_no_default (u : Nat) (p : String) (l : List APIKeyRec) :
    ∀ x ∈ clearDefaultsFlagged u p l,
      x.userId = u → x.provider = p → x.isDefault = false := by
  intro x hx hu hp
  rw [clearDefaultsFlagged, List.mem_map] at hx
  obtain ⟨y, hy, hyx⟩ := hx
  by_cases hc : (y.userId == u && y.provider == p && y.isDefault) = true
  · rw [if_pos hc] at hyx
    rw [← hyx]
  · rw [if_neg hc] at hyx
    subst hyx
    simpa [hu, hp] using hc

/-- After clearDefaultsAll nobody in the cleared slot is default. -/
theorem clearAll_no_default (u : Nat) (p : String) (l : List APIKeyRec) :
    ∀ x ∈ clearDefaultsAll u p l,
      x.userId = u → x.provider = p → x.isDefault = false := by
  intro x hx hu hp
  rw [clearDefaultsAll, List.mem_map] at hx
  obtain ⟨y, hy, hyx⟩ := hx
  by_cases hc : (y.userId == u && y.provider == p) = true
  · rw [if_pos hc] at hyx
    rw [← hyx]
  · rw [if_neg hc] at hyx
    subst hyx
    simp [hu, hp] at hc

/-- With distinct ids, two members sharing an id are the same record. -/
theorem eq_of_same_id (l : List APIKeyRec) (hIds : IdsNodup l)
    (a b : APIKeyRec) (ha : a ∈ l) (hb : b ∈ l) (h : a.id = b.id) :
    a = b := by
  by_contra hne
  exact (List.Pairwise.forall idNe_symmetric hIds ha hb hne) h

/-- A member of an id-preserving map sharing the id of a known source
member is the image of that member. -/
theorem mem_map_same_id (f : APIKeyRec → APIKeyRec)
    (hfid : ∀ x, (f x).id = x.id) (l : List APIKeyRec) (hIds : IdsNodup l)
    (r : APIKeyRec) (hr : r ∈ l) (a : APIKeyRec) (ha : a ∈ l.map f)
    (h : a.id = r.id) : a = f r := by
  rw [List.mem_map] at ha
  obtain ⟨b, hb, hba⟩ := ha
  have hbid : b.id = r.id := by
    rw [← hfid b, hba, h]
  rw [← hba, eq_of_same_id l hIds b r hb hr hbid]

/-- The create handler preserves default-key uniqueness. -/
theorem createKey_preserves (st : Store) (u : Nat) (p k n : String)
    (d : Bool) (hInv : AtMostOneDefault st.apiKeys) :
    AtMostOneDefault (createKey st u p k n d).2.apiKeys := by
  by_cases h1 : (p == "" || k == "" || n == "") = true
  · simpa [createKey, h1] using hInv
  · by_cases h2 : (st.apiKeys.find? fun r =>
        r.userId == u && r.provider == p && r.key == k).isSome = true
    · simpa [createKey, h1, h2] using hInv
    · have hpost : (createKey st u p k n d).2.apiKeys
          = (if d then clearDefaultsFlagged u p st.apiKeys else st.apiKeys)
            ++ [⟨st.nextId, u, p, k, n, d, true, 0, none⟩] := by
        simp [createKey, h1, h2]
      rw [hpost]
      cases d with
      | false =>
          rw [if_neg (by simp)]
          rw [AtMostOneDefault, List.pairwise_append]
          refine ⟨hInv, by simp, ?_⟩
          intro a _ b hb
          simp only [List.mem_singleton] at hb
          subst hb
          intro hcon
          exact absurd hcon.2.1 (by simp)
      | true =>
          rw [if_pos rfl]
          rw [AtMostOneDefault, List.pairwise_append]
          refine ⟨clearFlagged_preserves u p st.apiKeys hInv, by simp, ?_⟩
          intro a ha b hb
          simp only [List.mem_singleton] at hb
          subst hb
          intro hcon
          have hno := clearFlagged_no_default u p st.apiKeys a ha
            hcon.2.2.1 hcon.2.2.2
          rw [hcon.1] at hno
          exact absurd hno (by simp)

/-- The set-active handler preserves default-key uniqueness (given the
Mongo id uniqueness of the collection). -/
theorem setActiveKey_preserves (st : Store) (u kid : Nat)
    (hIds : IdsNodup st.apiKeys) (hInv : AtMostOneDefault st.apiKeys) :
    AtMostOneDefault (setActiveKey st u kid).2.apiKeys := by
  cases hfind : st.apiKeys.find? (fun r => r.id == kid) with
  | none => simpa [setActiveKey, hfind] using hInv
  | some r =>
      by_cases hown : (r.userId != u) = true
      · simpa [setActiveKey, hfind, hown] using hInv
      · have hpost : (setActiveKey st u kid).2.apiKeys
            = updateById kid (fun x => { x with isDefault := true })
                (clearDefaultsAll u r.provider st.apiKeys) := by
          simp [setActiveKey, hfind, hown]
        rw [hpost]
        have hru : r.userId = u := by
          simpa using hown
        have hrid : r.id = kid := by
          simpa using List.find?_some hfind
        have hrmem : r ∈ st.apiKeys := List.mem_of_find?_eq_some hfind
        have hP1 := clearAll_preserves u r.provider st.apiKeys hInv
        have hI1 := clearAll_ids u r.provider st.apiKeys hIds
        have hND := clearAll_no_default u r.provider st.apiKeys
        have hslot : ∀ a ∈ clearDefaultsAll u r.provider st.apiKeys,
            a.id = kid → a.userId = u ∧ a.provider = r.provider := by
          intro a ha haid
          rw [clearDefaultsAll, List.mem_map] at ha
          obtain ⟨y, hy, hya⟩ := ha
          by_cases hc : (y.userId == u && y.provider == r.provider) = true
          · rw [if_pos hc] at hya
            subst hya
            have hyid : y.id = r.id := by
              rw [hrid]
              exact haid
            have hyr := eq_of_same_id st.apiKeys hIds y r hy hrmem hyid
            subst hyr
            exact ⟨hru, rfl⟩
          · rw [if_neg hc] at hya
            subst hya
            have hyid : y.id = r.id := by
              rw [hrid]
              exact haid
            have hyr := eq_of_same_id st.apiKeys hIds y r hy hrmem hyid
            subst hyr
            exact ⟨hru, rfl⟩
        rw [updateById, AtMostOneDefault, List.pairwise_map]
        refine List.Pairwise.imp_of_mem ?_ (List.Pairwise.and hP1 hI1)
        intro a b hma hmb hab hcon
        by_cases haid : (a.id == kid) = true
        · by_cases hbid : (b.id == kid) = true
          · exact hab.2 (by
              have h1 : a.id = kid := by simpa using haid
              have h2 : b.id = kid := by simpa using hbid
              rw [h1, h2])
          · rw [if_pos haid, if_neg hbid] at hcon
            obtain ⟨h1, h2, h3, h4⟩ := hcon
            obtain ⟨hau, hap⟩ := hslot a hma (by simpa using haid)
            have hbu : b.userId = u := by
              have : a.userId = b.userId := h3
              rw [← this, hau]
            have hbp : b.provider = r.provider := by
              have : a.provider = b.provider := h4
              rw [← this, hap]
            have := hND b hmb hbu hbp
            rw [h2] at this
            exact absurd this (by simp)
        · by_cases hbid : (b.id == kid) = true
          · rw [if_neg haid, if_pos hbid] at hcon
            obtain ⟨h1, h2, h3, h4⟩ := hcon
            obtain ⟨hbu, hbp⟩ := hslot b hmb (by simpa using hbid)
            have hau : a.userId = u := by
              have : a.userId = b.userId := h3
              rw [this, hbu]
            have hap : a.provider = r.provider := by
              have : a.provider = b.provider := h4
              rw [this, hbp]
            have := hND a hma hau hap
            rw [h1] at this
            exact absurd this (by simp)
          · rw [if_neg haid, if_neg hbid] at hcon
            exact hab.1 hcon

/-- Replacing the document with a given id keeps the uniqueness invariant
as long as no other record is a default of the replacement's slot. -/
theorem pairwise_replace_default (l : List APIKeyRec) (kid : Nat)
    (r' : APIKeyRec) (hP : AtMostOneDefault l) (hI : IdsNodup l)
    (hb : ∀ b ∈ l, b.id ≠ kid → b.isDefault = true → r'.isDefault = true →
      b.userId = r'.userId → b.provider = r'.provider → False) :
    AtMostOneDefault (updateById kid (fun _ => r') l) := by
  rw [updateById, AtMostOneDefault, List.pairwise_map]
  refine List.Pairwise.imp_of_mem ?_ (List.Pairwise.and hP hI)
  intro a b hma hmb hab hcon
  by_cases haid : (a.id == kid) = true
  · by_cases hbid : (b.id == kid) = true
    · refine hab.2 ?_
      have h1 : a.id = kid := by simpa using haid
      have h2 : b.id = kid := by simpa using hbid
      rw [h1, h2]
    · rw [if_pos haid, if_neg hbid] at hcon
      exact hb b hmb (by simpa using hbid) hcon.2.1 hcon.1
        hcon.2.2.1.symm hcon.2.2.2.symm
  · by_cases hbid : (b.id == kid) = true
    · rw [if_neg haid, if_pos hbid] at hcon
      exact hb a hma (by simpa using haid) hcon.1 hcon.2.1
        hcon.2.2.1 hcon.2.2.2
    · rw [if_neg haid, if_neg hbid] at hcon
      exact hab.1 hcon

/-- The update handler preserves default-key uniqueness when the call
does not move the key to a different provider (the provider field of the
request body is empty or equals the record's provider). -/
theorem updateKey_preserves (st : Store) (u kid : Nat)
    (pArg key name : String) (d : Bool)
    (hIds : IdsNodup st.apiKeys) (hInv : AtMostOneDefault st.apiKeys)
    (hprov : ∀ r, st.apiKeys.find? (fun x => x.id == kid && x.userId == u)
      = some r → pArg = "" ∨ pArg = r.provider) :
    AtMostOneDefault (updateKey st u kid pArg key name d).2.apiKeys := by
  by_cases h1 : (key == "" || name == "") = true
  · simpa [updateKey, h1] using hInv
  · cases hfind : st.apiKeys.find? (fun x => x.id == kid && x.userId == u) with
    | none => simpa [updateKey, h1, hfind] using hInv
    | some r =>
        have hpred := List.find?_some hfind
        simp only [Bool.and_eq_true, beq_iff_eq] at hpred
        obtain ⟨hrid, hru⟩ := hpred
        have hrmem := List.mem_of_find?_eq_some hfind
        have hnp : (if pArg != "" then pArg else r.provider) = r.provider := by
          rcases hprov r hfind with h | h
          · rw [if_neg (by simp [h])]
          · by_cases hc : (pArg != "") = true
            · rw [if_pos hc, h]
            · rw [if_neg hc]
        by_cases h2 : (key != r.key && (st.apiKeys.find? fun k2 =>
            k2.userId == u && k2.key == key && k2.id != kid).isSome) = true
        · simpa [updateKey, h1, hfind, h2] using hInv
        · by_cases h3 : (st.apiKeys.find? fun k2 =>
              k2.id != kid && k2.userId == u &&
              k2.provider == (if pArg != "" then pArg else r.provider) &&
              k2.key == key).isSome = true
          · have hpost : (updateKey st u kid pArg key name d).2.apiKeys
                = (if d && !r.isDefault then
                    clearDefaultsFlagged u r.provider st.apiKeys
                  else st.apiKeys) := by
              unfold updateKey
              rw [if_neg h1]
              simp only [hfind]
              rw [if_neg h2]
              rw [if_pos h3]
            rw [hpost]
            by_cases h4 : (d && !r.isDefault) = true
            · rw [if_pos h4]
              exact clearFlagged_preserves u r.provider st.apiKeys hInv
            · rw [if_neg h4]
              exact hInv
          · have hpost : (updateKey st u kid pArg key name d).2.apiKeys
                = updateById kid (fun _ =>
                    { r with key := key, name := name, isDefault := d,
                             provider := if pArg != "" then pArg
                               else r.provider })
                  (if d && !r.isDefault then
                    clearDefaultsFlagged u r.provider st.apiKeys
                  else st.apiKeys) := by
              unfold updateKey
              rw [if_neg h1]
              simp only [hfind]
              rw [if_neg h2]
              rw [if_neg h3]
            rw [hpost, hnp]
            cases d with
            | false =>
                rw [if_neg (by simp)]
                refine pairwise_replace_default st.apiKeys kid _ hInv hIds ?_
                intro b _ _ _ hr'd _ _
                exact absurd hr'd (by simp)
            | true =>
                by_cases hrd : r.isDefault = true
                · rw [if_neg (by simp [hrd])]
                  refine pairwise_replace_default st.apiKeys kid _ hInv hIds ?_
                  intro b hbmem hbne hbd _ hbu hbp
                  have hner : b ≠ r := fun he => hbne (by rw [he, hrid])
                  have hnss := List.Pairwise.forall notSameSlot_symmetric
                    hInv hbmem hrmem hner
                  exact hnss ⟨hbd, hrd, hbu, hbp⟩
                · rw [if_pos (by simp [hrd])]
                  refine pairwise_replace_default _ kid _
                    (clearFlagged_preserves u r.provider st.apiKeys hInv)
                    (clearFlagged_ids u r.provider st.apiKeys hIds) ?_
                  intro b hbmem hbne hbd _ hbu hbp
                  have := clearFlagged_no_default u r.provider st.apiKeys
                    b hbmem (by rw [hbu, hru]) hbp
                  rw [hbd] at this
                  exact absurd this (by simp)

/-- Counterexample to C1 as stated: from a valid two-key store (one
default openai key, one default gemini key, same user) a single update
call that moves the gemini key to provider openai while keeping its
default flag completes with status updated and leaves two default
records for (user 7, openai) — the handler only clears siblings of the
record's OLD provider (and only when the flag transitions), so a
provider change breaks the invariant. -/
theorem updateKey_provider_change_two_defaults :
    IdsNodup [⟨1, 7, "openai", "k1", "a", true, true, 0, none⟩,
              ⟨2, 7, "gemini", "k2", "b", true, true, 0, none⟩] ∧
    AtMostOneDefault [⟨1, 7, "openai", "k1", "a", true, true, 0, none⟩,
              ⟨2, 7, "gemini", "k2", "b", true, true, 0, none⟩] ∧
    (updateKey ⟨[⟨1, 7, "openai", "k1", "a", true, true, 0, none⟩,
                 ⟨2, 7, "gemini", "k2", "b", true, true, 0, none⟩], [], [], 3⟩
        7 2 "openai" "k2" "b" true).1 = .updated ∧
    ¬ AtMostOneDefault (updateKey
        ⟨[⟨1, 7, "openai", "k1", "a", true, true, 0, none⟩,
          ⟨2, 7, "gemini", "k2", "b", true, true, 0, none⟩], [], [], 3⟩
        7 2 "openai" "k2" "b" true).2.apiKeys := by
  refine ⟨?_, ?_, ?_, ?_⟩
  · unfold IdsNodup
    decide
  · unfold AtMostOneDefault
    decide
  · decide
  · unfold AtMostOneDefault
    decide

/-- Claim C1 (amended): starting from a store satisfying the invariant
(and Mongo id uniqueness), a single create call, a single setDefault
call, and a single update call that does not change the key's provider
each leave at most one default-flagged APIKey per (user, provider); an
update that moves a key to a different provider is excluded, since it
can produce two defaults (see the counterexample). -/
theorem default_key_uniqueness (st : Store) (u kid : Nat)
    (provider key name : String) (d : Bool)
    (hIds : IdsNodup st.apiKeys) (hInv : AtMostOneDefault st.apiKeys)
    (hprov : ∀ r, st.apiKeys.find? (fun x => x.id == kid && x.userId == u)
      = some r → provider = "" ∨ provider = r.provider) :
    AtMostOneDefault (createKey st u provider key name d).2.apiKeys ∧
    AtMostOneDefault (setActiveKey st u kid).2.apiKeys ∧
    AtMostOneDefault (updateKey st u kid provider key name d).2.apiKeys :=
  ⟨createKey_preserves st u provider key name d hInv,
   setActiveKey_preserves st u kid hIds hInv,
   updateKey_preserves st u kid provider key name d hIds hInv hprov⟩

/-- Witness for C1 (amended) at a concrete two-key store: a create call,
setting key 1 active, and a no-provider-change update of key 1 each keep
at most one default per slot. -/
theorem default_key_uniqueness_witness :
    AtMostOneDefault (createKey
      ⟨[⟨1, 7, "openai", "k1", "a", true, true, 0, none⟩,
        ⟨2, 7, "gemini", "k2", "b", true, true, 0, none⟩], [], [], 3⟩
      7 "" "k9" "n" true).2.apiKeys ∧
    AtMostOneDefault (setActiveKey
      ⟨[⟨1, 7, "openai", "k1", "a", true, true, 0, none⟩,
        ⟨2, 7, "gemini", "k2", "b", true, true, 0, none⟩], [], [], 3⟩
      7 1).2.apiKeys ∧
    AtMostOneDefault (updateKey
      ⟨[⟨1, 7, "openai", "k1", "a", true, true, 0, none⟩,
        ⟨2, 7, "gemini", "k2", "b", true, true, 0, none⟩], [], [], 3⟩
      7 1 "" "k9" "n" true).2.apiKeys :=
  default_key_uniqueness
    ⟨[⟨1, 7, "openai", "k1", "a", true, true, 0, none⟩,
      ⟨2, 7, "gemini", "k2", "b", true, true, 0, none⟩], [], [], 3⟩
    7 1 "" "k9" "n" true
    (by unfold IdsNodup; decide) (by unfold AtMostOneDefault; decide)
    (fun r _ => Or.inl rfl)
